import Mathlib

/-!
# vvr-haltestellenabgleich: cache-backed reconciliation pipeline

A shallow embedding of `cmp-vvr-osm.go`.

* Go `string` is `String`; only equality and concatenation are used.
* `time.Time` is `Time := Int`, nanoseconds counted from the zero `time.Time`,
  so that the zero value of a struct holding a timestamp is `0`;
  `Before` is `<` and `Add` is `+`. Instants are unbounded: no run of the
  program comes near the ends of the range of `time.Time`.
* A slice is a `List` (a nil slice and an empty slice are both `[]`);
  `append` adds at the end.
* `float64` fields are never computed with, only carried; they are kept as
  their 64-bit pattern (`Float64 := Nat`).
* The outside world (wall clock, HTTP service) is explicit state of an
  arbitrary type `σ`, threaded through every `time.Now()` and `getJson` call.
* The file system is explicit state: the occupied paths below the working
  directory. A path is reached through the directories above it, so an
  operation fails with `ENOTDIR` or `ENOENT` when one of them is a regular
  file or missing. Permissions, a full disk and a working directory that is
  not writable are outside the model.
* Log output is not modelled.
-/

set_option autoImplicit false

namespace VvrOsm

/-! ## Constants -/

/-- Instants of `time.Time`, in nanoseconds from the zero `time.Time`. -/
abbrev Time := Int

/-- Bit pattern of a Go `float64`. -/
abbrev Float64 := Nat

/-- Go `time.Hour`, a `Duration` in nanoseconds. -/
def Hour : Int := 60 * 60 * 1000000000

def cacheDir : String := "cache"
def cacheTimeHours : Int := 23
def lockFile : String := ".lock"
def overpassDataFile : String := "overpass.json"
def vvrDataFile : String := "vvr.json"
def vvrSearchURL : String := "https://vvr.verbindungssuche.de/fpl/suhast.php?&query="

/-- Go `string(os.PathSeparator)`. -/
def pathSeparator : String := "/"

/-! ## Data model -/

/-- Go `VvrBusStop`: all info from VVR belonging to one bus stop. -/
structure VvrBusStop where
  ID : String
  Value : String
  Label : String
  deriving DecidableEq, Repr, Inhabited

/-- Go `VvrCity`: the VVR data of one city and its meta data. -/
structure VvrCity where
  SearchWord : String
  ResultTimeStamp : Time
  Result : List VvrBusStop
  deriving DecidableEq, Repr

/-- Go `VvrData`. -/
structure VvrData where
  CityResults : List VvrCity
  deriving DecidableEq, Repr

/-- The anonymous struct `Tags` of Go `OsmElement`. -/
structure OsmTags where
  Bench : String
  Bin : String
  Bus : String
  CheckDateShelter : String
  DeparturesBoard : String
  Highway : String
  Lit : String
  Name : String
  Operator : String
  PublicTransport : String
  Shelter : String
  TactilePaving : String
  Wheelchair : String
  deriving DecidableEq, Repr

/-- Go `OsmElement`; the field `Type` is spelled `Type_`, `Type` being reserved. -/
structure OsmElement where
  Type_ : String
  ID : Int
  Lat : Float64
  Lon : Float64
  Tags : OsmTags
  deriving DecidableEq, Repr

/-- The anonymous struct `Osm3S` of Go `OverpassData`. -/
structure Osm3S where
  TimestampOsmBase : Time
  TimestampAreasBase : Time
  Copyright : String
  deriving DecidableEq, Repr

/-- Go `OverpassData`: the OSM data queried via the overpass api. -/
structure OverpassData where
  Version : Float64
  Generator : String
  Osm3S : Osm3S
  Elements : List OsmElement
  deriving DecidableEq, Repr

/-- Go `MatchedBusStop`: a result of the merge of VVR data with OSM data. -/
structure MatchedBusStop where
  Name : String
  VvrID : String
  City : String
  Elements : List OsmElement
  deriving DecidableEq, Repr

/-- Zero value of `VvrData` (`var oldVvr VvrData`). -/
def VvrData.zero : VvrData := ⟨[]⟩

/-- Zero value of `OverpassData` (`var oldOverpassData OverpassData`). -/
def OverpassData.zero : OverpassData := ⟨0, "", ⟨0, 0, ""⟩, []⟩

/-- Zero value of `MatchedBusStop` (`var oneMatch MatchedBusStop`). -/
def MatchedBusStop.zero : MatchedBusStop := ⟨"", "", "", []⟩

/-! ## The outside world -/

/-- The two collaborators of the refresh loop, over a world state `σ`. -/
structure Env (σ : Type) where
  /-- Go `time.Now()`: a clock reading and the world after it. -/
  now : σ → Time × σ
  /-- Go `getJson(url, &newResult)` for a `[]VvrBusStop` target: the error or
  the decoded records, and the world after the request. -/
  getJson : String → σ → Except String (List VvrBusStop) × σ

/-! ## Refresh loop (lines 296-339 of `main`) -/

/-- Go `getCityResultFromData`, over the slice `vvr.CityResults`. -/
def getCityResultFromData.loop (cityName : String) : List VvrCity → Option VvrCity
  | [] => none
  | c :: rest =>
    if c.SearchWord = cityName then some c else getCityResultFromData.loop cityName rest

/-- Go `getCityResultFromData`: the first entry whose `SearchWord` is
`cityName`, `none` for the nil pointer. -/
def getCityResultFromData (cityName : String) (vvr : VvrData) : Option VvrCity :=
  getCityResultFromData.loop cityName vvr.CityResults

/-- State carried by the refresh loop. `fetched` is a ghost record of the URLs
handed to `getJson`, oldest first. -/
structure RefreshState (σ : Type) where
  world : σ
  newVvr : VvrData
  fetched : List String

/-- State at loop entry: `var newVvr VvrData`, nothing fetched. -/
def RefreshState.start {σ : Type} (w : σ) : RefreshState σ :=
  { world := w, newVvr := VvrData.zero, fetched := [] }

/-- Lines 300-319: the value of `isNewApiCallNeeded` and the world after the
clock reading, which is taken only when an old result exists. -/
def isNewApiCallNeeded {σ : Type} (env : Env σ) (oldVvrCity : Option VvrCity) (w : σ) :
    Bool × σ :=
  match oldVvrCity with
  | some o =>
    let r := env.now w
    let cacheTime : Time := r.1 + (-1 * cacheTimeHours * Hour)
    (decide (o.ResultTimeStamp < cacheTime), r.2)
  | none => (true, w)

/-- One iteration of the loop over `cities` (lines 298-338). -/
def refreshCity {σ : Type} (env : Env σ) (oldVvr : VvrData) (city : String)
    (s : RefreshState σ) : RefreshState σ :=
  let oldVvrCity := getCityResultFromData city oldVvr
  let chk := isNewApiCallNeeded env oldVvrCity s.world
  if chk.1 then
    let getURL := vvrSearchURL ++ city
    let got := env.getJson getURL chk.2
    match got.1 with
    | .error _ =>
      match oldVvrCity with
      | some o =>
        { world := got.2, newVvr := ⟨s.newVvr.CityResults ++ [o]⟩,
          fetched := s.fetched ++ [getURL] }
      | none =>
        { world := got.2, newVvr := s.newVvr, fetched := s.fetched ++ [getURL] }
    | .ok newResult =>
      let stamp := env.now got.2
      { world := stamp.2,
        newVvr := ⟨s.newVvr.CityResults ++ [⟨city, stamp.1, newResult⟩]⟩,
        fetched := s.fetched ++ [getURL] }
  else
    match oldVvrCity with
    | some o =>
      { world := chk.2, newVvr := ⟨s.newVvr.CityResults ++ [o]⟩, fetched := s.fetched }
    -- not reached: `isNewApiCallNeeded` is false only for a non-nil `oldVvrCity`
    | none => { s with world := chk.2 }

/-- The loop `for i := 0; i < len(cities); i++` from a given state. -/
def refreshLoop {σ : Type} (env : Env σ) (oldVvr : VvrData) :
    List String → RefreshState σ → RefreshState σ
  | [], s => s
  | city :: rest, s => refreshLoop env oldVvr rest (refreshCity env oldVvr city s)

/-- The whole refresh loop, entered with an empty `newVvr`. -/
def refresh {σ : Type} (env : Env σ) (oldVvr : VvrData) (cities : List String) (w : σ) :
    RefreshState σ :=
  refreshLoop env oldVvr cities (RefreshState.start w)

/-! ## Matching loop (lines 360-384 of `main`) -/

/-- Go `doesOsmElementMatchVvrElement`; `city` is not used. -/
def doesOsmElementMatchVvrElement (osm : OsmElement) (name : String) (_city : String) : Bool :=
  decide (osm.Tags.Name = name)

/-- The loop over `m` (lines 370-381) for the elements still to be scanned:
`searchWord` is `newVvr.CityResults[i].SearchWord`; the result is the final
`oneMatch` and `mbs`. -/
def matchElements (searchWord : String) :
    List OsmElement → MatchedBusStop → List MatchedBusStop →
      MatchedBusStop × List MatchedBusStop
  | [], oneMatch, mbs => (oneMatch, mbs)
  | e :: rest, oneMatch, mbs =>
    if doesOsmElementMatchVvrElement e oneMatch.Name oneMatch.City then
      matchElements searchWord rest
        { oneMatch with Elements := oneMatch.Elements ++ [e] } mbs
    else
      let notInVvrButInOsm : MatchedBusStop :=
        { MatchedBusStop.zero with
          City := searchWord, Name := e.Tags.Name,
          Elements := MatchedBusStop.zero.Elements ++ [e] }
      matchElements searchWord rest oneMatch (mbs ++ [notInVvrButInOsm])

/-- Body of the loop over `k` (lines 365-382): one stop candidate. -/
def matchBusStop (searchWord : String) (oneBusStop : VvrBusStop)
    (elements : List OsmElement) (mbs : List MatchedBusStop) : List MatchedBusStop :=
  let oneMatch : MatchedBusStop :=
    { MatchedBusStop.zero with
      Name := oneBusStop.Value, VvrID := oneBusStop.ID, City := searchWord }
  let r := matchElements searchWord elements oneMatch mbs
  r.2 ++ [r.1]

/-- The loop over `k`: the bus stops of one city. -/
def matchBusStops (searchWord : String) (elements : List OsmElement) :
    List VvrBusStop → List MatchedBusStop → List MatchedBusStop
  | [], mbs => mbs
  | b :: rest, mbs =>
    matchBusStops searchWord elements rest (matchBusStop searchWord b elements mbs)

/-- The loop over `i`: the cities of `newVvr`. -/
def matchCities (elements : List OsmElement) :
    List VvrCity → List MatchedBusStop → List MatchedBusStop
  | [], mbs => mbs
  | c :: rest, mbs =>
    matchCities elements rest (matchBusStops c.SearchWord elements c.Result mbs)

/-- The matching loop, entered with `var mbs []MatchedBusStop`. -/
def matchLoop (newVvr : VvrData) (oldOverpassData : OverpassData) : List MatchedBusStop :=
  matchCities oldOverpassData.Elements newVvr.CityResults []

/-! ## File system and JSON -/

/-- What a path holds. -/
inductive Node where
  | file (content : String)
  | dir
  deriving DecidableEq, Repr

/-- File operations, for the ghost record `Disk.ops`. -/
inductive FileOp where
  | stat (path : String)
  | mkdir (path : String)
  | writeFile (path : String)
  | readFile (path : String)
  | remove (path : String)
  deriving DecidableEq, Repr

/-- The error numbers the model tells apart. -/
inductive Errno where
  | ENOENT
  | ENOTDIR
  | EISDIR
  | EEXIST
  | ENOTEMPTY
  deriving DecidableEq, Repr

/-- The text of an error number. -/
def Errno.text : Errno → String
  | .ENOENT => "no such file or directory"
  | .ENOTDIR => "not a directory"
  | .EISDIR => "is a directory"
  | .EEXIST => "file exists"
  | .ENOTEMPTY => "directory not empty"

/-- The file system below the working directory: the occupied paths with what
they hold, and a ghost record of the operations performed, oldest first. The
first entry of a path counts. -/
structure Disk where
  entries : List (String × Node)
  ops : List FileOp

/-- The first entry of `path` in a list of entries. -/
def findNode (path : String) : List (String × Node) → Option Node
  | [] => none
  | e :: rest => if e.1 = path then some e.2 else findNode path rest

/-- What `path` itself holds, whatever lies above it. -/
def Disk.nodes (d : Disk) (path : String) : Option Node :=
  findNode path d.entries

/-- The entries without those of `path`. -/
def eraseNode (path : String) : List (String × Node) → List (String × Node)
  | [] => []
  | e :: rest => if e.1 = path then eraseNode path rest else e :: eraseNode path rest

/-- The entries with `path` now holding `n`. -/
def Disk.put (d : Disk) (path : String) (n : Node) : List (String × Node) :=
  (path, n) :: eraseNode path d.entries

/-- The entries with `path` holding nothing. -/
def Disk.drop (d : Disk) (path : String) : List (String × Node) :=
  eraseNode path d.entries

/-- The directories above a path, outermost first, for the characters still to
be read; `seen` is the part of the path already read. -/
def ancestors.loop (seen : List Char) : List Char → List String
  | [] => []
  | ch :: rest =>
    if ch = '/' ∧ seen ≠ [] then
      String.mk seen :: ancestors.loop (seen ++ [ch]) rest
    else
      ancestors.loop (seen ++ [ch]) rest

/-- The directories above a path, outermost first: `cache` for
`cache/vvr.json`, none for `cache` and for `.lock`. The working directory and
the root are not listed: they are directories. Paths are taken as the program
builds them, their components joined by single separators. -/
def ancestors (path : String) : List String :=
  ancestors.loop [] path.data

/-- Going down the directories above a path: the error met, if any. -/
def Disk.walk (d : Disk) : List String → Option Errno
  | [] => none
  | a :: rest =>
    match d.nodes a with
    | some Node.dir => d.walk rest
    | some (Node.file _) => some Errno.ENOTDIR
    | none => some Errno.ENOENT

/-- Path resolution: what the path holds, or why it cannot be reached. -/
def Disk.lookup (d : Disk) (path : String) : Except Errno Node :=
  match d.walk (ancestors path) with
  | some e => .error e
  | none =>
    match d.nodes path with
    | some n => .ok n
    | none => .error Errno.ENOENT

/-- Go `_, err := os.Stat(path); os.IsNotExist(err)`: true for `ENOENT` only. -/
def osStatIsNotExist (path : String) (d : Disk) : Bool × Disk :=
  (match d.lookup path with
   | .error Errno.ENOENT => true
   | _ => false,
   { d with ops := d.ops ++ [FileOp.stat path] })

/-- Go `os.Mkdir(path, os.ModePerm)`, its error dropped as in the callers: the
directory is made when the directories above exist and the path is free. -/
def osMkdir (path : String) (d : Disk) : Disk :=
  match d.walk (ancestors path), d.nodes path with
  | none, none =>
    { entries := d.put path Node.dir, ops := d.ops ++ [FileOp.mkdir path] }
  | _, _ => { d with ops := d.ops ++ [FileOp.mkdir path] }

/-- Go `ioutil.WriteFile(path, b, 0644)`: the file is created or replaced when
the directories above exist and the path is not a directory. -/
def ioutilWriteFile (path : String) (b : String) (d : Disk) : Except String Unit × Disk :=
  match d.walk (ancestors path), d.nodes path with
  | some e, _ => (.error e.text, { d with ops := d.ops ++ [FileOp.writeFile path] })
  | none, some Node.dir =>
    (.error Errno.EISDIR.text, { d with ops := d.ops ++ [FileOp.writeFile path] })
  | none, _ =>
    (.ok (),
     { entries := d.put path (Node.file b), ops := d.ops ++ [FileOp.writeFile path] })

/-- Go `ioutil.ReadFile(path)`. -/
def ioutilReadFile (path : String) (d : Disk) : Except String String × Disk :=
  (match d.lookup path with
   | .ok (Node.file b) => .ok b
   | .ok Node.dir => .error Errno.EISDIR.text
   | .error e => .error e.text,
   { d with ops := d.ops ++ [FileOp.readFile path] })

/-- Go `os.Remove(path)`: a file, or a directory with nothing below it. -/
def osRemove (path : String) (d : Disk) : Except String Unit × Disk :=
  match d.lookup path with
  | .ok (Node.file _) =>
    (.ok (), { entries := d.drop path, ops := d.ops ++ [FileOp.remove path] })
  | .ok Node.dir =>
    if d.entries.all (fun e => decide (path ∉ ancestors e.1)) then
      (.ok (), { entries := d.drop path, ops := d.ops ++ [FileOp.remove path] })
    else
      (.error Errno.ENOTEMPTY.text, { d with ops := d.ops ++ [FileOp.remove path] })
  | .error e => (.error e.text, { d with ops := d.ops ++ [FileOp.remove path] })

/-- The part of `encoding/json` the program uses, as a parameter. -/
structure JSON where
  /-- Go `json.Marshal(i)` for a `VvrData`. -/
  marshalVvrData : VvrData → Except String String
  /-- Go `json.Unmarshal(b, i)` for `i` a `*VvrData` pointing to the given value. -/
  unmarshalVvrData : String → VvrData → Except String VvrData
  /-- Go `json.Unmarshal(b, i)` for `i` a `*OverpassData` pointing to the given value. -/
  unmarshalOverpassData : String → OverpassData → Except String OverpassData

/-- Dynamic type and value of an `interface{}` argument, as far as the type
switches of `readCurrentJSON` and `writeNewJSON` tell types apart. A pointer is
given by the value it points to. -/
inductive Iface where
  | vvrData (v : VvrData)
  | overpassData (v : OverpassData)
  | ptrVvrData (target : VvrData)
  | ptrOverpassData (target : OverpassData)
  | other
  deriving DecidableEq, Repr

/-- How a call of `readCurrentJSON` ends: `log.Fatalln` (exit status 1), a
returned error, or `nil` with the argument as the call left it. -/
inductive ReadOutcome where
  | fatal
  | error (err : String)
  | done (i : Iface)
  deriving DecidableEq, Repr

/-- Lines 144-166 of `readCurrentJSON`, once the type switch has chosen the
path and the decoder. -/
def readCurrentJSON.fromPath (jsonFilePath : String) (i : Iface)
    (unmarshal : String → Except String Iface) (d : Disk) : ReadOutcome × Disk :=
  let st := osStatIsNotExist jsonFilePath d
  if st.1 then
    (ReadOutcome.done i, st.2)
  else
    let rd := ioutilReadFile jsonFilePath st.2
    match rd.1 with
    | .error err => (ReadOutcome.error err, rd.2)
    | .ok b =>
      match unmarshal b with
      | .error err => (ReadOutcome.error err, rd.2)
      | .ok i1 => (ReadOutcome.done i1, rd.2)

/-- Go `readCurrentJSON`. -/
def readCurrentJSON (json : JSON) (i : Iface) (d : Disk) : ReadOutcome × Disk :=
  match i with
  | .ptrVvrData target =>
    readCurrentJSON.fromPath (cacheDir ++ pathSeparator ++ vvrDataFile) i
      (fun b => (json.unmarshalVvrData b target).map Iface.ptrVvrData) d
  | .ptrOverpassData target =>
    readCurrentJSON.fromPath (cacheDir ++ pathSeparator ++ overpassDataFile) i
      (fun b => (json.unmarshalOverpassData b target).map Iface.ptrOverpassData) d
  | _ => (ReadOutcome.fatal, d)

/-- Go `writeNewJSON`: the returned error (`.ok ()` for `nil`) and the disk. -/
def writeNewJSON (json : JSON) (i : Iface) (d : Disk) : Except String Unit × Disk :=
  match i with
  | .vvrData v =>
    let st := osStatIsNotExist cacheDir d
    let d1 := if st.1 then osMkdir cacheDir st.2 else st.2
    let jsonFilePath := cacheDir ++ pathSeparator ++ vvrDataFile
    match json.marshalVvrData v with
    | .error err => (.error err, d1)
    | .ok b =>
      let wr := ioutilWriteFile jsonFilePath b d1
      match wr.1 with
      | .error err => (.error err, wr.2)
      | .ok _ => (.ok (), wr.2)
  | _ => (.error "unkown data type for writing json", d)

/-- Go `removeLockFile`; an error stands for the `log.Panic(err)`. -/
def removeLockFile (lf : String) (d : Disk) : Except String Unit × Disk :=
  osRemove lf d

/-! ## `main` -/

/-- How the execution guard (lines 266-283 of `main`) ends: the lock file is
now ours, or `os.Exit(1)` after "abort: lock file exists", or `panic(err)`. -/
inductive Acquire where
  | acquired
  | alreadyRunning
  | panic (err : String)
  deriving DecidableEq, Repr

/-- Lines 266-283 of `main`: check for the lock file, create it if absent. -/
def acquire (d : Disk) : Acquire × Disk :=
  let st := osStatIsNotExist lockFile d
  if st.1 then
    let wr := ioutilWriteFile lockFile "" st.2
    match wr.1 with
    | .error err => (Acquire.panic err, wr.2)
    | .ok _ => (Acquire.acquired, wr.2)
  else
    (Acquire.alreadyRunning, st.2)

/-- How the process ends. -/
inductive Outcome where
  | finished (mbs : List MatchedBusStop)
  | exit (status : Nat)
  | panic (err : String)
  deriving DecidableEq, Repr

/-- What a run of `main` leaves behind. -/
structure MainResult (σ : Type) where
  outcome : Outcome
  disk : Disk
  world : σ
  fetched : List String

/-- The variable behind a `*VvrData` argument after the call. -/
def Iface.toVvrData : Iface → VvrData
  | .ptrVvrData target => target
  | _ => VvrData.zero

/-- The variable behind a `*OverpassData` argument after the call. -/
def Iface.toOverpassData : Iface → OverpassData
  | .ptrOverpassData target => target
  | _ => OverpassData.zero

/-- The two places `removeLockFile(lockFile); panic(err)`, followed by the
deferred `removeLockFile(lockFile)` that runs while panicking. -/
def abortRun {σ : Type} (err : String) (d : Disk) (w : σ) (fetched : List String) :
    MainResult σ :=
  let r1 := removeLockFile lockFile d
  let p := match r1.1 with
    | .ok _ => err
    | .error e => e
  let r2 := removeLockFile lockFile r1.2
  match r2.1 with
  | .ok _ => ⟨Outcome.panic p, r2.2, w, fetched⟩
  | .error e => ⟨Outcome.panic e, r2.2, w, fetched⟩

/-- Go `main`, with the configured `cities` as a parameter. `os.Exit` runs no
deferred call; the deferred `removeLockFile` runs on return and on panic once
the lock file has been written. -/
def main {σ : Type} (env : Env σ) (json : JSON) (cities : List String) (d : Disk) (w : σ) :
    MainResult σ :=
  let start := env.now w
  let acq := acquire d
  match acq.1 with
  | .alreadyRunning => ⟨Outcome.exit 1, acq.2, start.2, []⟩
  | .panic err => ⟨Outcome.panic err, acq.2, start.2, []⟩
  | .acquired =>
    let rd := readCurrentJSON json (Iface.ptrVvrData VvrData.zero) acq.2
    match rd.1 with
    | .fatal => ⟨Outcome.exit 1, rd.2, start.2, []⟩
    | .error err => abortRun err rd.2 start.2 []
    | .done i =>
      let oldVvr := i.toVvrData
      let r := refresh env oldVvr cities start.2
      let newVvr := r.newVvr
      -- an error of `writeNewJSON` is only logged
      let wr := writeNewJSON json (Iface.vvrData newVvr) rd.2
      let rd2 := readCurrentJSON json (Iface.ptrOverpassData OverpassData.zero) wr.2
      match rd2.1 with
      | .fatal => ⟨Outcome.exit 1, rd2.2, r.world, r.fetched⟩
      | .error err => abortRun err rd2.2 r.world r.fetched
      | .done i2 =>
        let oldOverpassData := i2.toOverpassData
        let mbs := matchLoop newVvr oldOverpassData
        let rl := removeLockFile lockFile rd2.2
        match rl.1 with
        | .ok _ => ⟨Outcome.finished mbs, rl.2, r.world, r.fetched⟩
        | .error e => ⟨Outcome.panic e, rl.2, r.world, r.fetched⟩

/-! ## Concrete scenarios -/

/-- A world that counts the calls made so far: the clock shows `1000` plus the
count, the request for locality `A` returns one record and every other request
fails. -/
def scenarioEnv : Env Nat where
  now := fun n => (1000 + (n : Int), n + 1)
  getJson := fun url n =>
    (if url = vvrSearchURL ++ "A" then .ok [⟨"1", "Stop1", ""⟩] else .error "no answer", n + 1)

/-- A cached result for locality `A` taken exactly 23 hours before the clock
reading `1000`. -/
def cachedA : VvrCity := ⟨"A", 1000 - 23 * Hour, [⟨"7", "Hafen", ""⟩]⟩

/-- A cached result for locality `B` taken 24 hours before the clock reading `1000`. -/
def cachedB : VvrCity := ⟨"B", 1000 - 24 * Hour, [⟨"8", "Markt", ""⟩]⟩

/-- A loaded dataset with `cachedA` and `cachedB`. -/
def cachedAB : VvrData := ⟨[cachedA, cachedB]⟩

/-- A loaded dataset with a result for `A` that is 24 hours old at the clock
reading `1000`. -/
def staleA : VvrData := ⟨[⟨"A", 1000 - 24 * Hour, [⟨"7", "Hafen", ""⟩]⟩]⟩

/-- A map element with the given identifier and `name` tag. -/
def busStopNode (id : Int) (name : String) : OsmElement :=
  ⟨"node", id, 0, 0, ⟨"", "", "", "", "", "bus_stop", "", name, "", "", "", "", ""⟩⟩

/-- A map snapshot with the given elements. -/
def mapOf (elements : List OsmElement) : OverpassData :=
  { OverpassData.zero with Elements := elements }

/-- A dataset with the single stop record `Markt` for the locality `Stralsund`. -/
def marktData : VvrData := ⟨[⟨"Stralsund", 1000, [⟨"1", "Markt", "Markt"⟩]⟩]⟩

/-- A dataset with the stop records `Markt` and `Bahnhof` for `Stralsund`. -/
def marktBahnhofData : VvrData :=
  ⟨[⟨"Stralsund", 1000, [⟨"1", "Markt", "Markt"⟩, ⟨"2", "Bahnhof", "Bahnhof"⟩]⟩]⟩

/-- A disk with no file and no directory. -/
def emptyDisk : Disk := ⟨[], []⟩

/-- A disk on which `cache` is a regular file. -/
def cacheIsFile : Disk := ⟨[("cache", Node.file "")], []⟩

/-- The document of `VvrData.zero`. -/
def docZero : String := "\x7b\"CityResults\":null\x7d"

/-- The document of `marktData`. -/
def docMarkt : String :=
  "\x7b\"CityResults\":[\x7b\"SearchWord\":\"Stralsund\"," ++
  "\"ResultTimeStamp\":\"0001-01-01T00:00:00.000001Z\"," ++
  "\"Result\":[\x7b\"id\":\"1\",\"value\":\"Markt\",\"label\":\"Markt\"\x7d]\x7d]\x7d"

/-- A document of a map snapshot with one element named `Markt`. -/
def docMap : String :=
  "\x7b\"elements\":[\x7b\"type\":\"node\",\"id\":1,\"tags\":" ++
  "\x7b\"highway\":\"bus_stop\",\"name\":\"Markt\"\x7d\x7d]\x7d"

/-- A stand-in for `encoding/json` that knows the three documents above and
rejects everything else. -/
def tableJSON : JSON where
  marshalVvrData := fun v =>
    if v = VvrData.zero then .ok docZero
    else if v = marktData then .ok docMarkt
    else .error "json: unsupported value"
  unmarshalVvrData := fun b _ =>
    if b = docZero then .ok VvrData.zero
    else if b = docMarkt then .ok marktData
    else .error "invalid character"
  unmarshalOverpassData := fun b _ =>
    if b = docMap then .ok (mapOf [busStopNode 1 "Markt"])
    else .error "invalid character"

/-- The group of the record `Markt` when no element is named `Markt`. -/
def marktAlone : MatchedBusStop := ⟨"Markt", "1", "Stralsund", []⟩

/-! ## The two kinds of group, as the specification words them -/

/-- As the specification words it: a matched group has a transit-agency
identifier and one or more associated elements. -/
@[reducible] def isMatchedGroup (g : MatchedBusStop) : Prop :=
  g.VvrID ≠ "" ∧ 1 ≤ g.Elements.length

/-- As the specification words it: an orphan group has an empty transit-agency
identifier and exactly one element, which has no transit-agency counterpart:
its name is the display value of no stop record of the dataset. -/
@[reducible] def isOrphanGroup (newVvr : VvrData) (g : MatchedBusStop) : Prop :=
  g.VvrID = "" ∧ g.Elements.length = 1 ∧
    ∀ e ∈ g.Elements, ∀ c ∈ newVvr.CityResults, ∀ b ∈ c.Result, e.Tags.Name ≠ b.Value

/-! ## Lemmas on the refresh loop -/

theorem getCityResultFromData_loop_some (c : String) (l : List VvrCity) (o : VvrCity)
    (h : getCityResultFromData.loop c l = some o) : o.SearchWord = c ∧ o ∈ l := by
  induction l with
  | nil => simp [getCityResultFromData.loop] at h
  | cons x rest ih =>
    unfold getCityResultFromData.loop at h
    split at h
    · rename_i hx
      cases h
      exact ⟨hx, List.mem_cons_self _ _⟩
    · exact ⟨(ih h).1, List.mem_cons_of_mem _ (ih h).2⟩

theorem getCityResultFromData_some (c : String) (old : VvrData) (o : VvrCity)
    (h : getCityResultFromData c old = some o) : o.SearchWord = c ∧ o ∈ old.CityResults :=
  getCityResultFromData_loop_some c old.CityResults o h

theorem vvrSearchURL_inj (a b : String) (h : vvrSearchURL ++ a = vvrSearchURL ++ b) : a = b := by
  have h1 := congrArg String.data h
  simp only [String.data_append] at h1
  exact String.ext (List.append_cancel_left h1)

/-- Without an old result a request is needed, so the last branch of
`refreshCity` is never taken. -/
theorem isNewApiCallNeeded_none {σ : Type} (env : Env σ) (w : σ) :
    isNewApiCallNeeded env none w = (true, w) := rfl

/-- The test of line 307 is "older than 23 hours". -/
theorem before_cacheTime_iff (a t : Int) :
    a < t + (-1 * cacheTimeHours * Hour) ↔ cacheTimeHours * Hour < t - a := by
  unfold cacheTimeHours Hour
  omega

section steps

variable {σ : Type} (env : Env σ) (oldVvr : VvrData) (c : String) (s : RefreshState σ)

/-- The cached result is not older than 23 hours: it is reused, nothing is fetched. -/
theorem refreshCity_reuse (o : VvrCity) (t : Time) (w1 : σ)
    (hfound : getCityResultFromData c oldVvr = some o)
    (hnow : env.now s.world = (t, w1))
    (hage : t - o.ResultTimeStamp ≤ cacheTimeHours * Hour) :
    refreshCity env oldVvr c s =
      { world := w1, newVvr := ⟨s.newVvr.CityResults ++ [o]⟩, fetched := s.fetched } := by
  have hlt : decide (o.ResultTimeStamp < t + (-1 * cacheTimeHours * Hour)) = false := by
    rw [decide_eq_false_iff_not, before_cacheTime_iff]
    exact not_lt.mpr hage
  simp only [refreshCity, isNewApiCallNeeded, hfound, hnow, hlt]
  simp

/-- The cached result is older than 23 hours and the request fails: the old
result is carried over. -/
theorem refreshCity_fallback (o : VvrCity) (t : Time) (w1 w2 : σ) (err : String)
    (hfound : getCityResultFromData c oldVvr = some o)
    (hnow : env.now s.world = (t, w1))
    (hage : cacheTimeHours * Hour < t - o.ResultTimeStamp)
    (hget : env.getJson (vvrSearchURL ++ c) w1 = (.error err, w2)) :
    refreshCity env oldVvr c s =
      { world := w2, newVvr := ⟨s.newVvr.CityResults ++ [o]⟩,
        fetched := s.fetched ++ [vvrSearchURL ++ c] } := by
  have hlt : decide (o.ResultTimeStamp < t + (-1 * cacheTimeHours * Hour)) = true := by
    rw [decide_eq_true_iff, before_cacheTime_iff]
    exact hage
  simp only [refreshCity, isNewApiCallNeeded, hfound, hnow, hlt, hget]
  simp

/-- No cached result and the request fails: nothing is added. -/
theorem refreshCity_omit (w2 : σ) (err : String)
    (hnone : getCityResultFromData c oldVvr = none)
    (hget : env.getJson (vvrSearchURL ++ c) s.world = (.error err, w2)) :
    refreshCity env oldVvr c s =
      { world := w2, newVvr := s.newVvr, fetched := s.fetched ++ [vvrSearchURL ++ c] } := by
  simp [refreshCity, isNewApiCallNeeded, hnone, hget]

/-- No cached result and the request succeeds. -/
theorem refreshCity_fetch_absent (w2 w3 : σ) (rs : List VvrBusStop) (t2 : Time)
    (hnone : getCityResultFromData c oldVvr = none)
    (hget : env.getJson (vvrSearchURL ++ c) s.world = (.ok rs, w2))
    (hstamp : env.now w2 = (t2, w3)) :
    refreshCity env oldVvr c s =
      { world := w3, newVvr := ⟨s.newVvr.CityResults ++ [⟨c, t2, rs⟩]⟩,
        fetched := s.fetched ++ [vvrSearchURL ++ c] } := by
  simp [refreshCity, isNewApiCallNeeded, hnone, hget, hstamp]

/-- The cached result is older than 23 hours and the request succeeds. -/
theorem refreshCity_fetch_stale (o : VvrCity) (t : Time) (w1 w2 w3 : σ)
    (rs : List VvrBusStop) (t2 : Time)
    (hfound : getCityResultFromData c oldVvr = some o)
    (hnow : env.now s.world = (t, w1))
    (hage : cacheTimeHours * Hour < t - o.ResultTimeStamp)
    (hget : env.getJson (vvrSearchURL ++ c) w1 = (.ok rs, w2))
    (hstamp : env.now w2 = (t2, w3)) :
    refreshCity env oldVvr c s =
      { world := w3, newVvr := ⟨s.newVvr.CityResults ++ [⟨c, t2, rs⟩]⟩,
        fetched := s.fetched ++ [vvrSearchURL ++ c] } := by
  have hlt : decide (o.ResultTimeStamp < t + (-1 * cacheTimeHours * Hour)) = true := by
    rw [decide_eq_true_iff, before_cacheTime_iff]
    exact hage
  simp only [refreshCity, isNewApiCallNeeded, hfound, hnow, hlt, hget, hstamp]
  simp

/-- Whatever the world does, one iteration adds at most one entry, for its own
city, and at most one request, for its own URL. -/
theorem refreshCity_grows :
    (∃ l : List VvrCity,
      (refreshCity env oldVvr c s).newVvr.CityResults = s.newVvr.CityResults ++ l ∧
      (l.map VvrCity.SearchWord).Sublist [c]) ∧
    (∃ u : List String,
      (refreshCity env oldVvr c s).fetched = s.fetched ++ u ∧
      u.Sublist [vvrSearchURL ++ c]) := by
  unfold refreshCity
  cases hfound : getCityResultFromData c oldVvr with
  | none =>
    simp only [isNewApiCallNeeded, if_true]
    cases hg : (env.getJson (vvrSearchURL ++ c) s.world).1 with
    | error e => exact ⟨⟨[], by simp⟩, ⟨[vvrSearchURL ++ c], by simp⟩⟩
    | ok rs => exact ⟨⟨[_], rfl, by simp⟩, ⟨[vvrSearchURL ++ c], by simp⟩⟩
  | some o =>
    have ho := (getCityResultFromData_some c oldVvr o hfound).1
    simp only [isNewApiCallNeeded]
    split
    · cases hg : (env.getJson (vvrSearchURL ++ c) (env.now s.world).2).1 with
      | error e => exact ⟨⟨[o], rfl, by simp [ho]⟩, ⟨[vvrSearchURL ++ c], by simp⟩⟩
      | ok rs => exact ⟨⟨[_], rfl, by simp⟩, ⟨[vvrSearchURL ++ c], by simp⟩⟩
    · exact ⟨⟨[o], rfl, by simp [ho]⟩, ⟨[], by simp⟩⟩

end steps

section loops

variable {σ : Type} (env : Env σ) (oldVvr : VvrData)

theorem refreshLoop_append (pre post : List String) (s : RefreshState σ) :
    refreshLoop env oldVvr (pre ++ post) s =
      refreshLoop env oldVvr post (refreshLoop env oldVvr pre s) := by
  induction pre generalizing s with
  | nil => rfl
  | cons c pre ih => exact ih (refreshCity env oldVvr c s)

/-- The loop over `cs` adds entries whose cities form a subsequence of `cs`,
and requests whose URLs form a subsequence of the URLs of `cs`. -/
theorem refreshLoop_grows (cs : List String) (s : RefreshState σ) :
    (∃ l : List VvrCity,
      (refreshLoop env oldVvr cs s).newVvr.CityResults = s.newVvr.CityResults ++ l ∧
      (l.map VvrCity.SearchWord).Sublist cs) ∧
    (∃ u : List String,
      (refreshLoop env oldVvr cs s).fetched = s.fetched ++ u ∧
      u.Sublist (cs.map (fun c => vvrSearchURL ++ c))) := by
  induction cs generalizing s with
  | nil => exact ⟨⟨[], by simp [refreshLoop]⟩, ⟨[], by simp [refreshLoop]⟩⟩
  | cons c cs ih =>
    obtain ⟨⟨l1, hl1, hs1⟩, ⟨u1, hu1, ht1⟩⟩ := refreshCity_grows env oldVvr c s
    obtain ⟨⟨l2, hl2, hs2⟩, ⟨u2, hu2, ht2⟩⟩ := ih (refreshCity env oldVvr c s)
    refine ⟨⟨l1 ++ l2, ?_, ?_⟩, ⟨u1 ++ u2, ?_, ?_⟩⟩
    · simp only [refreshLoop, hl2, hl1, List.append_assoc]
    · rw [List.map_append]
      exact List.Sublist.append hs1 hs2
    · simp only [refreshLoop, hu2, hu1, List.append_assoc]
    · exact List.Sublist.append ht1 (by simpa using ht2)

/-- Around the iteration for `c` in `pre ++ c :: post`: if the iteration adds
the entries `l` and the requests `u`, the final dataset is what `pre` gave,
then `l`, then what `post` gives; with pairwise distinct cities the final
entries for `c` are those of `l` and the final requests for `c` those of `u`. -/
theorem refresh_around (pre post : List String) (c : String) (w0 : σ)
    (l : List VvrCity) (u : List String)
    (hl : (refreshCity env oldVvr c (refresh env oldVvr pre w0)).newVvr.CityResults =
      (refresh env oldVvr pre w0).newVvr.CityResults ++ l)
    (hu : (refreshCity env oldVvr c (refresh env oldVvr pre w0)).fetched =
      (refresh env oldVvr pre w0).fetched ++ u) :
    (∃ rest, (refresh env oldVvr (pre ++ c :: post) w0).newVvr.CityResults =
      (refresh env oldVvr pre w0).newVvr.CityResults ++ l ++ rest) ∧
    ((pre ++ c :: post).Nodup →
      (refresh env oldVvr (pre ++ c :: post) w0).newVvr.CityResults.filter
          (fun e => e.SearchWord = c) = l.filter (fun e => e.SearchWord = c) ∧
      (refresh env oldVvr (pre ++ c :: post) w0).fetched.count (vvrSearchURL ++ c) =
        u.count (vvrSearchURL ++ c)) := by
  have hfinal : refresh env oldVvr (pre ++ c :: post) w0 =
      refreshLoop env oldVvr post (refreshCity env oldVvr c (refresh env oldVvr pre w0)) := by
    simp only [refresh, refreshLoop_append, refreshLoop]
  obtain ⟨⟨l1, hl1, hs1⟩, ⟨u1, hu1, ht1⟩⟩ :=
    refreshLoop_grows env oldVvr pre (RefreshState.start w0)
  obtain ⟨⟨l2, hl2, hs2⟩, ⟨u2, hu2, ht2⟩⟩ :=
    refreshLoop_grows env oldVvr post (refreshCity env oldVvr c (refresh env oldVvr pre w0))
  refine ⟨⟨l2, by rw [hfinal, hl2, hl]⟩, ?_⟩
  intro hnd
  have hcpre : c ∉ pre := fun h =>
    (List.nodup_append.mp hnd).2.2 h (List.mem_cons_self _ _)
  have hcpost : c ∉ post := (List.nodup_cons.mp (List.nodup_append.mp hnd).2.1).1
  have hpre : (refresh env oldVvr pre w0).newVvr.CityResults = l1 := by
    simpa [refresh, RefreshState.start, VvrData.zero] using hl1
  have hpreu : (refresh env oldVvr pre w0).fetched = u1 := by
    simpa [refresh, RefreshState.start] using hu1
  have none_of : ∀ (cs : List String) (k : List VvrCity), c ∉ cs →
      (k.map VvrCity.SearchWord).Sublist cs →
      k.filter (fun e => e.SearchWord = c) = [] := by
    intro cs k hcs hk
    refine List.filter_eq_nil_iff.mpr (fun e he hec => ?_)
    have hec2 : e.SearchWord = c := by simpa using hec
    exact hcs (hec2 ▸ hk.subset (List.mem_map_of_mem _ he))
  have no_url : ∀ (cs v : List String), c ∉ cs →
      v.Sublist (cs.map (fun c => vvrSearchURL ++ c)) →
      v.count (vvrSearchURL ++ c) = 0 := by
    intro cs v hcs hv
    refine List.count_eq_zero.mpr (fun hin => ?_)
    obtain ⟨c2, hc2, heq⟩ := List.mem_map.mp (hv.subset hin)
    exact hcs (vvrSearchURL_inj _ _ heq ▸ hc2)
  constructor
  · rw [hfinal, hl2, hl, hpre, List.filter_append, List.filter_append,
      none_of pre l1 hcpre hs1, none_of post l2 hcpost hs2]
    simp
  · rw [hfinal, hu2, hu, hpreu, List.count_append, List.count_append,
      no_url pre u1 hcpre ht1, no_url post u2 hcpost ht2]
    simp

end loops

/-! ## The refresh loop: claims -/

section refreshClaims

variable {σ : Type} (env : Env σ) (oldVvr : VvrData)

/-- C1. In the iteration for a configured locality `c` (at any position:
`cities = pre ++ c :: post`) whose prior snapshot `o`, the entry found by
`getCityResultFromData`, has age `t - o.ResultTimeStamp ≤ 23` hours at the clock
reading `t` of that iteration (age exactly 23 hours included), the fetcher is
not invoked and exactly `o` is appended: the output dataset holds `o`, equal to
the prior snapshot in every field, at that position. With pairwise distinct
localities the run makes no request for `c` at all and the output entries
whose `SearchWord` is `c` are `o` alone. -/
theorem refresh_fresh_snapshot_reused (pre post : List String) (c : String) (w0 : σ)
    (o : VvrCity) (t : Time) (w1 : σ)
    (hfound : getCityResultFromData c oldVvr = some o)
    (hnow : env.now (refresh env oldVvr pre w0).world = (t, w1))
    (hage : t - o.ResultTimeStamp ≤ cacheTimeHours * Hour) :
    refreshCity env oldVvr c (refresh env oldVvr pre w0) =
      { world := w1,
        newVvr := ⟨(refresh env oldVvr pre w0).newVvr.CityResults ++ [o]⟩,
        fetched := (refresh env oldVvr pre w0).fetched } ∧
    (∃ rest, (refresh env oldVvr (pre ++ c :: post) w0).newVvr.CityResults =
      (refresh env oldVvr pre w0).newVvr.CityResults ++ [o] ++ rest) ∧
    ((pre ++ c :: post).Nodup →
      vvrSearchURL ++ c ∉ (refresh env oldVvr (pre ++ c :: post) w0).fetched ∧
      (refresh env oldVvr (pre ++ c :: post) w0).newVvr.CityResults.filter
        (fun e => e.SearchWord = c) = [o]) := by
  have hstep := refreshCity_reuse env oldVvr c (refresh env oldVvr pre w0) o t w1
    hfound hnow hage
  have hoc := (getCityResultFromData_some c oldVvr o hfound).1
  have har := refresh_around env oldVvr pre post c w0 [o] []
    (by rw [hstep]) (by rw [hstep]; simp)
  refine ⟨hstep, har.1, fun hnd => ⟨?_, ?_⟩⟩
  · exact List.count_eq_zero.mp (by rw [(har.2 hnd).2]; rfl)
  · rw [(har.2 hnd).1]
    simp [hoc]

/-- C1, at a concrete input: `cachedA` is exactly 23 hours old at the clock
reading `1000`; it is reused and no request for `A` is made. -/
theorem refresh_fresh_snapshot_reused_witness :
    (1000 : Int) - cachedA.ResultTimeStamp = cacheTimeHours * Hour ∧
    vvrSearchURL ++ "A" ∉ (refresh scenarioEnv cachedAB ["A", "B"] 0).fetched ∧
    (refresh scenarioEnv cachedAB ["A", "B"] 0).newVvr.CityResults.filter
      (fun e => e.SearchWord = "A") = [cachedA] :=
  ⟨by decide,
   (refresh_fresh_snapshot_reused scenarioEnv cachedAB [] ["B"] "A" 0 cachedA 1000 1
      (by decide) rfl (by decide)).2.2 (by decide)⟩

/-- C2. In the iteration for a configured locality `c` that has a prior
snapshot `o` older than 23 hours at the clock reading `t`, if the request
fails then exactly `o` is appended, with `ResultTimeStamp` and `Result`
unchanged, and the loop goes on with the remaining localities `post` from the
state so reached. With pairwise distinct localities the output entries whose
`SearchWord` is `c` are `o` alone. -/
theorem refresh_failed_fetch_keeps_prior (pre post : List String) (c : String) (w0 : σ)
    (o : VvrCity) (t : Time) (w1 w2 : σ) (err : String)
    (hfound : getCityResultFromData c oldVvr = some o)
    (hnow : env.now (refresh env oldVvr pre w0).world = (t, w1))
    (hage : cacheTimeHours * Hour < t - o.ResultTimeStamp)
    (hget : env.getJson (vvrSearchURL ++ c) w1 = (.error err, w2)) :
    refreshCity env oldVvr c (refresh env oldVvr pre w0) =
      { world := w2,
        newVvr := ⟨(refresh env oldVvr pre w0).newVvr.CityResults ++ [o]⟩,
        fetched := (refresh env oldVvr pre w0).fetched ++ [vvrSearchURL ++ c] } ∧
    refresh env oldVvr (pre ++ c :: post) w0 =
      refreshLoop env oldVvr post
        { world := w2,
          newVvr := ⟨(refresh env oldVvr pre w0).newVvr.CityResults ++ [o]⟩,
          fetched := (refresh env oldVvr pre w0).fetched ++ [vvrSearchURL ++ c] } ∧
    (∃ rest, (refresh env oldVvr (pre ++ c :: post) w0).newVvr.CityResults =
      (refresh env oldVvr pre w0).newVvr.CityResults ++ [o] ++ rest) ∧
    ((pre ++ c :: post).Nodup →
      (refresh env oldVvr (pre ++ c :: post) w0).newVvr.CityResults.filter
        (fun e => e.SearchWord = c) = [o]) := by
  have hstep := refreshCity_fallback env oldVvr c (refresh env oldVvr pre w0) o t w1 w2 err
    hfound hnow hage hget
  have hoc := (getCityResultFromData_some c oldVvr o hfound).1
  have har := refresh_around env oldVvr pre post c w0 [o] [vvrSearchURL ++ c]
    (by rw [hstep]) (by rw [hstep])
  refine ⟨hstep, ?_, har.1, fun hnd => ?_⟩
  · rw [← hstep]
    simp only [refresh, refreshLoop_append, refreshLoop]
  · rw [(har.2 hnd).1]
    simp [hoc]

/-- C2, at a concrete input: `cachedB` is older than 23 hours, the request for
`B` fails, and `cachedB` is the output entry for `B`. -/
theorem refresh_failed_fetch_keeps_prior_witness :
    (refresh scenarioEnv cachedAB ["A", "B"] 0).newVvr.CityResults = [cachedA, cachedB] ∧
    (refresh scenarioEnv cachedAB ["A", "B"] 0).newVvr.CityResults.filter
      (fun e => e.SearchWord = "B") = [cachedB] :=
  ⟨by decide,
   (refresh_failed_fetch_keeps_prior scenarioEnv cachedAB ["A"] [] "B" 0 cachedB 1001 2 3
      "no answer" (by decide) rfl (by decide) rfl).2.2.2 (by decide)⟩

/-- C3. With pairwise distinct configured localities, for a configured locality
`c` that has no snapshot in the loaded dataset and whose request fails, the
iteration appends nothing and the output dataset has no entry whose
`SearchWord` is `c`. -/
theorem refresh_failed_fetch_without_prior_omits (pre post : List String) (c : String)
    (w0 : σ) (w2 : σ) (err : String)
    (hnd : (pre ++ c :: post).Nodup)
    (hnone : getCityResultFromData c oldVvr = none)
    (hget : env.getJson (vvrSearchURL ++ c) (refresh env oldVvr pre w0).world =
      (.error err, w2)) :
    (refreshCity env oldVvr c (refresh env oldVvr pre w0)).newVvr =
      (refresh env oldVvr pre w0).newVvr ∧
    ∀ e ∈ (refresh env oldVvr (pre ++ c :: post) w0).newVvr.CityResults,
      e.SearchWord ≠ c := by
  have hstep := refreshCity_omit env oldVvr c (refresh env oldVvr pre w0) w2 err hnone hget
  have har := refresh_around env oldVvr pre post c w0 [] [vvrSearchURL ++ c]
    (by rw [hstep]; simp) (by rw [hstep])
  refine ⟨by rw [hstep], fun e he hec => ?_⟩
  have hnil := (har.2 hnd).1
  rw [List.filter_nil] at hnil
  exact List.filter_eq_nil_iff.mp hnil e he (by simpa using hec)

/-- C3, the end-to-end scenario: empty prior dataset, localities `A` and `B`,
the request for `A` returns one record and the request for `B` fails. The
output has exactly one entry, for `A`, with one record, and none for `B`. -/
theorem refresh_failed_fetch_without_prior_omits_witness :
    (refresh scenarioEnv VvrData.zero ["A", "B"] 0).newVvr.CityResults =
      [⟨"A", 1001, [⟨"1", "Stop1", ""⟩]⟩] ∧
    ∀ e ∈ (refresh scenarioEnv VvrData.zero ["A", "B"] 0).newVvr.CityResults,
      e.SearchWord ≠ "B" :=
  ⟨by decide,
   (refresh_failed_fetch_without_prior_omits scenarioEnv VvrData.zero ["A"] [] "B" 0 3
      "no answer" (by decide) (by decide) rfl).2⟩

/-- C4. In the iteration for a configured locality `c` that is absent from the
loaded dataset, or whose prior snapshot is older than 23 hours at the clock
reading `t` of the check, if the request succeeds with the records `rs` then
exactly one entry is appended: a new snapshot with `SearchWord = c`,
`ResultTimeStamp` the clock reading `t2` taken after the request, and
`Result = rs`. With pairwise distinct localities the output entries whose
`SearchWord` is `c` are this new snapshot alone, the run makes exactly one
request for `c`, and, the clock not having run backwards (`t ≤ t2`), the prior
snapshot is not in the output. -/
theorem refresh_successful_fetch_replaces (pre post : List String) (c : String) (w0 : σ)
    (t : Time) (w1 w2 w3 : σ) (rs : List VvrBusStop) (t2 : Time)
    (hneeded :
      (getCityResultFromData c oldVvr = none ∧ w1 = (refresh env oldVvr pre w0).world) ∨
      (∃ o, getCityResultFromData c oldVvr = some o ∧
        env.now (refresh env oldVvr pre w0).world = (t, w1) ∧
        cacheTimeHours * Hour < t - o.ResultTimeStamp))
    (hget : env.getJson (vvrSearchURL ++ c) w1 = (.ok rs, w2))
    (hstamp : env.now w2 = (t2, w3)) :
    refreshCity env oldVvr c (refresh env oldVvr pre w0) =
      { world := w3,
        newVvr := ⟨(refresh env oldVvr pre w0).newVvr.CityResults ++ [⟨c, t2, rs⟩]⟩,
        fetched := (refresh env oldVvr pre w0).fetched ++ [vvrSearchURL ++ c] } ∧
    (∃ rest, (refresh env oldVvr (pre ++ c :: post) w0).newVvr.CityResults =
      (refresh env oldVvr pre w0).newVvr.CityResults ++ [⟨c, t2, rs⟩] ++ rest) ∧
    ((pre ++ c :: post).Nodup →
      (refresh env oldVvr (pre ++ c :: post) w0).newVvr.CityResults.filter
        (fun e => e.SearchWord = c) = [⟨c, t2, rs⟩] ∧
      (refresh env oldVvr (pre ++ c :: post) w0).fetched.count (vvrSearchURL ++ c) = 1 ∧
      (∀ o, getCityResultFromData c oldVvr = some o → t ≤ t2 →
        o ∉ (refresh env oldVvr (pre ++ c :: post) w0).newVvr.CityResults)) := by
  have hstep : refreshCity env oldVvr c (refresh env oldVvr pre w0) =
      { world := w3,
        newVvr := ⟨(refresh env oldVvr pre w0).newVvr.CityResults ++ [⟨c, t2, rs⟩]⟩,
        fetched := (refresh env oldVvr pre w0).fetched ++ [vvrSearchURL ++ c] } := by
    rcases hneeded with ⟨hnone, hw⟩ | ⟨o, hfound, hnow, hage⟩
    · subst hw
      exact refreshCity_fetch_absent env oldVvr c _ w2 w3 rs t2 hnone hget hstamp
    · exact refreshCity_fetch_stale env oldVvr c _ o t w1 w2 w3 rs t2 hfound hnow hage hget
        hstamp
  have har := refresh_around env oldVvr pre post c w0 [⟨c, t2, rs⟩] [vvrSearchURL ++ c]
    (by rw [hstep]) (by rw [hstep])
  refine ⟨hstep, har.1, fun hnd => ?_⟩
  have hfil : (refresh env oldVvr (pre ++ c :: post) w0).newVvr.CityResults.filter
      (fun e => e.SearchWord = c) = [⟨c, t2, rs⟩] := by
    rw [(har.2 hnd).1]
    simp
  refine ⟨hfil, by rw [(har.2 hnd).2]; simp, fun o ho hle hin => ?_⟩
  have hoc := (getCityResultFromData_some c oldVvr o ho).1
  have hmem : o ∈ (refresh env oldVvr (pre ++ c :: post) w0).newVvr.CityResults.filter
      (fun e => e.SearchWord = c) := List.mem_filter.mpr ⟨hin, by simpa using hoc⟩
  rw [hfil] at hmem
  have heq := List.mem_singleton.mp hmem
  rcases hneeded with ⟨hnone, _⟩ | ⟨o2, hfound, _, hage⟩
  · rw [hnone] at ho
    cases ho
  · rw [hfound] at ho
    cases ho
    have hts : (o.ResultTimeStamp : Int) = t2 := by rw [heq]
    have hpos : (0 : Int) < cacheTimeHours * Hour := by decide
    have hle2 : (t : Int) ≤ t2 := hle
    have hage2 : cacheTimeHours * Hour < (t : Int) - o.ResultTimeStamp := hage
    linarith

/-- C4, at a concrete input: the cached result for `A` is 24 hours old, the
request succeeds, and the output entry for `A` is the new snapshot, stamped
with the clock reading taken after the request; the old one is gone. -/
theorem refresh_successful_fetch_replaces_witness :
    (refresh scenarioEnv staleA ["A"] 0).newVvr.CityResults.filter
      (fun e => e.SearchWord = "A") = [⟨"A", 1002, [⟨"1", "Stop1", ""⟩]⟩] ∧
    (refresh scenarioEnv staleA ["A"] 0).fetched.count (vvrSearchURL ++ "A") = 1 ∧
    (∀ o, getCityResultFromData "A" staleA = some o → (1000 : Int) ≤ 1002 →
      o ∉ (refresh scenarioEnv staleA ["A"] 0).newVvr.CityResults) :=
  (refresh_successful_fetch_replaces scenarioEnv staleA [] [] "A" 0 1000 1 2 3
    [⟨"1", "Stop1", ""⟩] 1002
    (Or.inr ⟨⟨"A", 1000 - 24 * Hour, [⟨"7", "Hafen", ""⟩]⟩, by decide, rfl, by decide⟩)
    rfl rfl).2.2 (by decide)

/-- C10. For every loaded dataset and every behaviour of the clock and the
fetcher, the `SearchWord` values of the output dataset, in order, form a
subsequence of the configured locality list; so with pairwise distinct
localities no two output entries share a `SearchWord`, and every output
`SearchWord` is a configured locality. -/
theorem refresh_searchWords_sublist (cities : List String) (w0 : σ) :
    ((refresh env oldVvr cities w0).newVvr.CityResults.map VvrCity.SearchWord).Sublist
      cities ∧
    (cities.Nodup →
      ((refresh env oldVvr cities w0).newVvr.CityResults.map VvrCity.SearchWord).Nodup) ∧
    (∀ e ∈ (refresh env oldVvr cities w0).newVvr.CityResults, e.SearchWord ∈ cities) := by
  obtain ⟨⟨l, hl, hs⟩, _⟩ := refreshLoop_grows env oldVvr cities (RefreshState.start w0)
  have hout : (refresh env oldVvr cities w0).newVvr.CityResults = l := by
    simpa [refresh, RefreshState.start, VvrData.zero] using hl
  rw [hout]
  exact ⟨hs, fun hnd => hnd.sublist hs, fun e he => hs.subset (List.mem_map_of_mem _ he)⟩

end refreshClaims

/-! ## Lemmas on the matching loop -/

/-- The loop over `m`: the matching elements are appended to `oneMatch`, in
order, and one group is appended to `mbs` for every other element, in order. -/
theorem matchElements_eq (searchWord : String) (es : List OsmElement)
    (oneMatch : MatchedBusStop) (mbs : List MatchedBusStop) :
    matchElements searchWord es oneMatch mbs =
      ({ oneMatch with
          Elements := oneMatch.Elements ++ es.filter (fun e => e.Tags.Name = oneMatch.Name) },
       mbs ++ (es.filter (fun e => e.Tags.Name ≠ oneMatch.Name)).map
          (fun e => ⟨e.Tags.Name, "", searchWord, [e]⟩)) := by
  induction es generalizing oneMatch mbs with
  | nil => simp [matchElements]
  | cons e es ih =>
    unfold matchElements
    by_cases h : e.Tags.Name = oneMatch.Name
    · simp [doesOsmElementMatchVvrElement, h, ih]
    · simp [doesOsmElementMatchVvrElement, h, ih, MatchedBusStop.zero]

/-- One stop candidate: the groups of the elements that do not match, then the
candidate's own group. -/
theorem matchBusStop_eq (searchWord : String) (b : VvrBusStop) (es : List OsmElement)
    (mbs : List MatchedBusStop) :
    matchBusStop searchWord b es mbs =
      mbs ++ ((es.filter (fun e => e.Tags.Name ≠ b.Value)).map
          (fun e => (⟨e.Tags.Name, "", searchWord, [e]⟩ : MatchedBusStop)) ++
        [⟨b.Value, b.ID, searchWord, es.filter (fun e => e.Tags.Name = b.Value)⟩]) := by
  simp [matchBusStop, matchElements_eq, MatchedBusStop.zero]

theorem matchBusStops_eq (searchWord : String) (es : List OsmElement) (bs : List VvrBusStop)
    (mbs : List MatchedBusStop) :
    matchBusStops searchWord es bs mbs =
      mbs ++ bs.flatMap (fun b => matchBusStop searchWord b es []) := by
  induction bs generalizing mbs with
  | nil => simp [matchBusStops]
  | cons b bs ih =>
    rw [matchBusStops, ih, matchBusStop_eq, List.flatMap_cons, matchBusStop_eq]
    simp

theorem matchCities_eq (es : List OsmElement) (cs : List VvrCity) (mbs : List MatchedBusStop) :
    matchCities es cs mbs =
      mbs ++ cs.flatMap (fun c => c.Result.flatMap
        (fun b => matchBusStop c.SearchWord b es [])) := by
  induction cs generalizing mbs with
  | nil => simp [matchCities]
  | cons c cs ih =>
    rw [matchCities, ih, matchBusStops_eq]
    simp

theorem matchLoop_eq (newVvr : VvrData) (ov : OverpassData) :
    matchLoop newVvr ov =
      newVvr.CityResults.flatMap (fun c => c.Result.flatMap
        (fun b => matchBusStop c.SearchWord b ov.Elements [])) := by
  simp [matchLoop, matchCities_eq]

theorem length_flatMap_snoc {α β : Type} (l : List α) (f : α → List β) (g : α → β) :
    (l.flatMap (fun a => f a ++ [g a])).length = l.length + (l.map (fun a => (f a).length)).sum := by
  induction l with
  | nil => simp
  | cons a l ih =>
    simp only [List.flatMap_cons, List.length_append, ih, List.length_cons, List.length_nil,
      List.map_cons, List.sum_cons]
    omega

theorem length_flatMap_add {α β : Type} (l : List α) (f : α → List β) (m n : α → Nat)
    (h : ∀ a, (f a).length = m a + n a) :
    (l.flatMap f).length = (l.map m).sum + (l.map n).sum := by
  induction l with
  | nil => simp
  | cons a l ih =>
    simp only [List.flatMap_cons, List.length_append, ih, h, List.map_cons, List.sum_cons]
    omega

/-! ## The matching loop: claims -/

/-- C5. The matching loop handles the stop candidates in dataset order, one
call of `matchBusStop` each. For every candidate (locality `searchWord`, record
`b`) and every map snapshot, the groups appended for the candidate end with the
candidate's own group, which has `Name = b.Value`, `VvrID = b.ID`,
`City = searchWord` and as `Elements` exactly the snapshot's elements whose name
tag equals `b.Value`, in snapshot order; the groups before it hold no element
named `b.Value`, so no orphan group is emitted for a pair that matches. One
record and one element of the same name give exactly one group, holding that
element, and no orphan group. -/
theorem match_candidate_group (newVvr : VvrData) (ov : OverpassData) :
    matchLoop newVvr ov =
      newVvr.CityResults.flatMap (fun c => c.Result.flatMap
        (fun b => matchBusStop c.SearchWord b ov.Elements [])) ∧
    (∀ (searchWord : String) (b : VvrBusStop) (mbs : List MatchedBusStop),
      ∃ orphans : List MatchedBusStop,
        matchBusStop searchWord b ov.Elements mbs =
          mbs ++ orphans ++
            [⟨b.Value, b.ID, searchWord,
              ov.Elements.filter (fun e => e.Tags.Name = b.Value)⟩] ∧
        ∀ g ∈ orphans, ∀ e ∈ g.Elements, e.Tags.Name ≠ b.Value) ∧
    (∀ (searchWord : String) (ts : Time) (b : VvrBusStop) (e : OsmElement),
      e.Tags.Name = b.Value →
        matchLoop ⟨[⟨searchWord, ts, [b]⟩]⟩ { ov with Elements := [e] } =
          [⟨b.Value, b.ID, searchWord, [e]⟩]) := by
  refine ⟨matchLoop_eq newVvr ov, fun searchWord b mbs => ?_, fun searchWord ts b e he => ?_⟩
  · refine ⟨(ov.Elements.filter (fun e => e.Tags.Name ≠ b.Value)).map
      (fun e => ⟨e.Tags.Name, "", searchWord, [e]⟩), ?_, ?_⟩
    · rw [matchBusStop_eq, List.append_assoc]
    · intro g hg e he
      obtain ⟨e2, he2, rfl⟩ := List.mem_map.mp hg
      rw [List.mem_singleton.mp he]
      simpa using (List.mem_filter.mp he2).2
  · simp [matchLoop_eq, matchBusStop_eq, he]

/-- C5, at the concrete input of the claim: the record `Markt` and one element
named `Markt` give exactly one group, holding that element. -/
theorem match_candidate_group_witness :
    matchLoop marktData (mapOf [busStopNode 1 "Markt"]) =
      [⟨"Markt", "1", "Stralsund", [busStopNode 1 "Markt"]⟩] :=
  (match_candidate_group marktData (mapOf [busStopNode 1 "Markt"])).2.2
    "Stralsund" 1000 ⟨"1", "Markt", "Markt"⟩ (busStopNode 1 "Markt") rfl

/-- C6. For every dataset and map snapshot the output is, candidate by
candidate in dataset order, one orphan group for each element whose name
differs from the record's `Value` (empty `VvrID`, `City` the candidate's
locality, `Name` the element's name, `Elements` that element alone), in
snapshot order, followed by the candidate's own group. So an element is
emitted once for every candidate it fails against, and the output length is
the number of stop records plus the number of non-matching (record, element)
pairs. One record and one element of another name give the element's orphan
group followed by the record's group with zero elements. -/
theorem match_orphan_groups (newVvr : VvrData) (ov : OverpassData) :
    matchLoop newVvr ov =
      newVvr.CityResults.flatMap (fun c => c.Result.flatMap (fun b =>
        (ov.Elements.filter (fun e => e.Tags.Name ≠ b.Value)).map
            (fun e => (⟨e.Tags.Name, "", c.SearchWord, [e]⟩ : MatchedBusStop)) ++
          [⟨b.Value, b.ID, c.SearchWord,
            ov.Elements.filter (fun e => e.Tags.Name = b.Value)⟩])) ∧
    (matchLoop newVvr ov).length =
      (newVvr.CityResults.map (fun c => c.Result.length)).sum +
      (newVvr.CityResults.map (fun c => (c.Result.map (fun b =>
        (ov.Elements.filter (fun e => e.Tags.Name ≠ b.Value)).length)).sum)).sum ∧
    (∀ (searchWord : String) (ts : Time) (b : VvrBusStop) (e : OsmElement),
      e.Tags.Name ≠ b.Value →
        matchLoop ⟨[⟨searchWord, ts, [b]⟩]⟩ { ov with Elements := [e] } =
          [⟨e.Tags.Name, "", searchWord, [e]⟩, ⟨b.Value, b.ID, searchWord, []⟩]) := by
  have heq : matchLoop newVvr ov =
      newVvr.CityResults.flatMap (fun c => c.Result.flatMap (fun b =>
        (ov.Elements.filter (fun e => e.Tags.Name ≠ b.Value)).map
            (fun e => (⟨e.Tags.Name, "", c.SearchWord, [e]⟩ : MatchedBusStop)) ++
          [⟨b.Value, b.ID, c.SearchWord,
            ov.Elements.filter (fun e => e.Tags.Name = b.Value)⟩])) := by
    simp [matchLoop_eq, matchBusStop_eq]
  refine ⟨heq, ?_, fun searchWord ts b e he => ?_⟩
  · rw [heq]
    apply length_flatMap_add
    intro c
    rw [length_flatMap_snoc]
    simp
  · simp [matchLoop_eq, matchBusStop_eq, he]

/-- C6, at the concrete input of the claim: the record `Markt` and one element
named `Bahnhof` give the orphan group of `Bahnhof` followed by the group of
`Markt` with zero elements. -/
theorem match_orphan_groups_witness :
    matchLoop marktData (mapOf [busStopNode 1 "Bahnhof"]) =
      [⟨"Bahnhof", "", "Stralsund", [busStopNode 1 "Bahnhof"]⟩,
       ⟨"Markt", "1", "Stralsund", []⟩] :=
  (match_orphan_groups marktData (mapOf [busStopNode 1 "Bahnhof"])).2.2
    "Stralsund" 1000 ⟨"1", "Markt", "Markt"⟩ (busStopNode 1 "Bahnhof") (by decide)

/-- C9 fails as stated. With the record `Markt` and one element named `Bahnhof`
the output holds the group of `Markt`, which has a `VvrID` and zero elements:
neither kind. With the records `Markt` and `Bahnhof` and the same element, the
output holds a group with empty `VvrID` whose one element is named like the
record `Bahnhof`: neither kind. -/
theorem groups_two_kinds_counterexample :
    (∃ g ∈ matchLoop marktData (mapOf [busStopNode 1 "Bahnhof"]),
      g.VvrID = "1" ∧ g.Elements = [] ∧ ¬ (isMatchedGroup g ∨ isOrphanGroup marktData g)) ∧
    (∃ g ∈ matchLoop marktBahnhofData (mapOf [busStopNode 1 "Bahnhof"]),
      g.VvrID = "" ∧ g.Elements = [busStopNode 1 "Bahnhof"] ∧
        ¬ (isMatchedGroup g ∨ isOrphanGroup marktBahnhofData g)) := by
  decide

/-- C9, amended. Every group of the output is either the group of a stop
record `b` of a snapshot `c` of the dataset, with `Name = b.Value`,
`VvrID = b.ID`, `City = c.SearchWord` and as `Elements` the zero or more
elements of the map snapshot named `b.Value`; or a group with empty `VvrID` and
exactly one element `e` of the map snapshot, with `Name` the name of `e` and
`City` the key of a snapshot `c` one of whose records has a `Value` other than
the name of `e`. -/
theorem groups_two_kinds_amended (newVvr : VvrData) (ov : OverpassData) (g : MatchedBusStop)
    (hg : g ∈ matchLoop newVvr ov) :
    (∃ c ∈ newVvr.CityResults, ∃ b ∈ c.Result,
      g = ⟨b.Value, b.ID, c.SearchWord,
        ov.Elements.filter (fun e => e.Tags.Name = b.Value)⟩) ∨
    (g.VvrID = "" ∧ ∃ e ∈ ov.Elements, g.Elements = [e] ∧ g.Name = e.Tags.Name ∧
      ∃ c ∈ newVvr.CityResults, g.City = c.SearchWord ∧
        ∃ b ∈ c.Result, e.Tags.Name ≠ b.Value) := by
  rw [matchLoop_eq] at hg
  obtain ⟨c, hc, hg⟩ := List.mem_flatMap.mp hg
  obtain ⟨b, hb, hg⟩ := List.mem_flatMap.mp hg
  rw [matchBusStop_eq, List.nil_append] at hg
  rcases List.mem_append.mp hg with hg | hg
  · obtain ⟨e, he, rfl⟩ := List.mem_map.mp hg
    have hne : e.Tags.Name ≠ b.Value := by simpa using (List.mem_filter.mp he).2
    exact Or.inr ⟨rfl, e, (List.mem_filter.mp he).1, rfl, rfl, c, hc, rfl, b, hb, hne⟩
  · exact Or.inl ⟨c, hc, b, hb, List.mem_singleton.mp hg⟩

/-- C9 amended, at a concrete input: the group of `Markt` with zero elements,
emitted for the record `Markt` and one element named `Bahnhof`. -/
theorem groups_two_kinds_amended_witness :
    marktAlone ∈ matchLoop marktData (mapOf [busStopNode 1 "Bahnhof"]) ∧
    ((∃ c ∈ marktData.CityResults, ∃ b ∈ c.Result,
      marktAlone = ⟨b.Value, b.ID, c.SearchWord,
        (mapOf [busStopNode 1 "Bahnhof"]).Elements.filter
          (fun e => e.Tags.Name = b.Value)⟩) ∨
    (marktAlone.VvrID = "" ∧
      ∃ e ∈ (mapOf [busStopNode 1 "Bahnhof"]).Elements,
        marktAlone.Elements = [e] ∧ marktAlone.Name = e.Tags.Name ∧
        ∃ c ∈ marktData.CityResults, marktAlone.City = c.SearchWord ∧
          ∃ b ∈ c.Result, e.Tags.Name ≠ b.Value)) :=
  ⟨by decide,
   groups_two_kinds_amended marktData (mapOf [busStopNode 1 "Bahnhof"]) marktAlone
     (by decide)⟩


/-! ## Lemmas on the file system -/

theorem findNode_eraseNode_self (path : String) (l : List (String × Node)) :
    findNode path (eraseNode path l) = none := by
  induction l with
  | nil => rfl
  | cons e l ih =>
    by_cases h : e.1 = path
    · simp only [eraseNode, if_pos h, ih]
    · simp only [eraseNode, if_neg h, findNode, ih]

theorem findNode_eraseNode_other (path q : String) (hq : q ≠ path)
    (l : List (String × Node)) :
    findNode q (eraseNode path l) = findNode q l := by
  induction l with
  | nil => rfl
  | cons e l ih =>
    by_cases h : e.1 = path
    · have hne : e.1 ≠ q := fun h2 => hq (h2 ▸ h)
      simp only [eraseNode, if_pos h, findNode, if_neg hne, ih]
    · by_cases h2 : e.1 = q
      · simp only [eraseNode, if_neg h, findNode, if_pos h2]
      · simp only [eraseNode, if_neg h, findNode, if_neg h2, ih]

theorem findNode_put_self (d : Disk) (path : String) (n : Node) :
    findNode path (d.put path n) = some n := by
  simp [Disk.put, findNode]

theorem findNode_put_other (d : Disk) (path q : String) (n : Node) (hq : q ≠ path) :
    findNode q (d.put path n) = findNode q d.entries := by
  have hne : path ≠ q := fun h => hq h.symm
  simp only [Disk.put, findNode, if_neg hne]
  exact findNode_eraseNode_other path q hq d.entries

theorem findNode_drop_self (d : Disk) (path : String) :
    findNode path (d.drop path) = none :=
  findNode_eraseNode_self path d.entries

/-- Resolution of a path with no directory above it. -/
theorem lookup_top (d : Disk) (path : String) (ha : ancestors path = []) :
    d.lookup path =
      match findNode path d.entries with
      | some n => .ok n
      | none => .error Errno.ENOENT := by
  simp only [Disk.lookup, ha, Disk.walk, Disk.nodes]

/-- A write goes through when the directories above exist and the path is not
a directory. -/
theorem ioutilWriteFile_ok (path b : String) (d : Disk)
    (hw : d.walk (ancestors path) = none) (hn : d.nodes path ≠ some Node.dir) :
    ioutilWriteFile path b d =
      (.ok (), { entries := d.put path (Node.file b),
                 ops := d.ops ++ [FileOp.writeFile path] }) := by
  unfold ioutilWriteFile
  rw [hw]
  cases hnode : d.nodes path with
  | none => rfl
  | some n =>
    cases n with
    | file content => rfl
    | dir => exact absurd hnode hn

theorem ancestors_lockFile : ancestors lockFile = [] := by decide

theorem ancestors_cacheDir : ancestors cacheDir = [] := by decide

theorem ancestors_vvrDataPath :
    ancestors (cacheDir ++ pathSeparator ++ vvrDataFile) = [cacheDir] := by decide

/-! ## Cache and execution guard: claims -/

/-- C7 fails as stated. For the map dataset `writeNewJSON` of an `OverpassData`
does not succeed: it returns "unkown data type for writing json" and writes
nothing, and the `readCurrentJSON` that follows yields the zero value, not the
snapshot handed to `writeNewJSON`. For the per-city dataset `writeNewJSON` does
not succeed on a disk where `cache` is a regular file: it returns "not a
directory" and writes nothing. -/
theorem cache_round_trip_counterexample :
    writeNewJSON tableJSON (Iface.overpassData (mapOf [busStopNode 1 "Markt"])) emptyDisk =
      (.error "unkown data type for writing json", emptyDisk) ∧
    (readCurrentJSON tableJSON (Iface.ptrOverpassData OverpassData.zero)
      (writeNewJSON tableJSON (Iface.overpassData (mapOf [busStopNode 1 "Markt"]))
        emptyDisk).2).1 = ReadOutcome.done (Iface.ptrOverpassData OverpassData.zero) ∧
    OverpassData.zero ≠ mapOf [busStopNode 1 "Markt"] ∧
    (writeNewJSON tableJSON (Iface.vvrData marktData) cacheIsFile).1 =
      .error "not a directory" ∧
    (writeNewJSON tableJSON (Iface.vvrData marktData) cacheIsFile).2.entries =
      cacheIsFile.entries :=
  ⟨rfl, by decide, by decide, rfl, by decide⟩

/-- C7, amended. For the per-city dataset, and every `VvrData` (with zero, one
or many entries, entries with an empty `Result` included) on which the JSON
encoding is lossless (`Marshal` gives a document `b` and `Unmarshal` of `b`
into the zero value gives the dataset back), on every disk where `cache` is
not a regular file and `cache/vvr.json` is not a directory, `writeNewJSON`
succeeds, `cache` is a directory afterwards, `cache/vvr.json` holds `b`, and a
following `readCurrentJSON` into a zero `VvrData` yields the dataset stored.
For the map dataset `writeNewJSON` returns an error and leaves the disk as it
was. -/
theorem cache_round_trip_vvr (json : JSON) (v : VvrData) (b : String) (d : Disk)
    (hm : json.marshalVvrData v = .ok b)
    (hu : json.unmarshalVvrData b VvrData.zero = .ok v)
    (hcache : ∀ content, d.nodes cacheDir ≠ some (Node.file content))
    (hpath : d.nodes (cacheDir ++ pathSeparator ++ vvrDataFile) ≠ some Node.dir) :
    (writeNewJSON json (Iface.vvrData v) d).1 = .ok () ∧
    (writeNewJSON json (Iface.vvrData v) d).2.nodes cacheDir = some Node.dir ∧
    (writeNewJSON json (Iface.vvrData v) d).2.nodes (cacheDir ++ pathSeparator ++ vvrDataFile) =
      some (Node.file b) ∧
    (readCurrentJSON json (Iface.ptrVvrData VvrData.zero)
      (writeNewJSON json (Iface.vvrData v) d).2).1 = ReadOutcome.done (Iface.ptrVvrData v) ∧
    (∀ ov : OverpassData, writeNewJSON json (Iface.overpassData ov) d =
      (.error "unkown data type for writing json", d)) := by
  have hne : cacheDir ≠ cacheDir ++ pathSeparator ++ vvrDataFile := by decide
  simp only [Disk.nodes] at hcache hpath ⊢
  -- the disk after the `Stat` and the `Mkdir` it may lead to
  obtain ⟨d1, hd1, hdir, hleaf⟩ : ∃ d1 : Disk,
      (if (osStatIsNotExist cacheDir d).1 then osMkdir cacheDir (osStatIsNotExist cacheDir d).2
        else (osStatIsNotExist cacheDir d).2) = d1 ∧
      findNode cacheDir d1.entries = some Node.dir ∧
      findNode (cacheDir ++ pathSeparator ++ vvrDataFile) d1.entries =
        findNode (cacheDir ++ pathSeparator ++ vvrDataFile) d.entries := by
    cases hc : findNode cacheDir d.entries with
    | none =>
      have hst : (osStatIsNotExist cacheDir d).1 = true := by
        simp only [osStatIsNotExist, lookup_top d cacheDir ancestors_cacheDir, hc]
      have hmk : osMkdir cacheDir (osStatIsNotExist cacheDir d).2 =
          { entries := d.put cacheDir Node.dir,
            ops := d.ops ++ [FileOp.stat cacheDir] ++ [FileOp.mkdir cacheDir] } := by
        simp only [osMkdir, osStatIsNotExist, ancestors_cacheDir, Disk.walk, Disk.nodes, hc]
        rfl
      refine ⟨_, rfl, ?_, ?_⟩
      · rw [if_pos hst, hmk]
        exact findNode_put_self d cacheDir Node.dir
      · rw [if_pos hst, hmk]
        exact findNode_put_other d cacheDir _ Node.dir (Ne.symm hne)
    | some n =>
      cases n with
      | file content => exact absurd hc (hcache content)
      | dir =>
        have hst : (osStatIsNotExist cacheDir d).1 = false := by
          simp only [osStatIsNotExist, lookup_top d cacheDir ancestors_cacheDir, hc]
        refine ⟨_, rfl, ?_, ?_⟩
        · rw [hst]
          exact hc
        · rw [hst]
          rfl
  have hwalk : d1.walk (ancestors (cacheDir ++ pathSeparator ++ vvrDataFile)) = none := by
    rw [ancestors_vvrDataPath]
    simp only [Disk.walk, Disk.nodes, hdir]
  have hwr := ioutilWriteFile_ok (cacheDir ++ pathSeparator ++ vvrDataFile) b d1 hwalk
    (by rw [Disk.nodes, hleaf]; exact hpath)
  have hres : writeNewJSON json (Iface.vvrData v) d =
      (.ok (), { entries := d1.put (cacheDir ++ pathSeparator ++ vvrDataFile) (Node.file b),
                 ops := d1.ops ++ [FileOp.writeFile (cacheDir ++ pathSeparator ++ vvrDataFile)] }) := by
    simp only [writeNewJSON, hm, hd1, hwr]
  have hcacheAfter : findNode cacheDir
      (d1.put (cacheDir ++ pathSeparator ++ vvrDataFile) (Node.file b)) = some Node.dir := by
    rw [findNode_put_other _ _ _ _ hne]
    exact hdir
  refine ⟨by rw [hres], ?_, ?_, ?_, fun ov => rfl⟩
  · rw [hres]
    exact hcacheAfter
  · rw [hres]
    exact findNode_put_self _ _ _
  · rw [hres]
    simp only [readCurrentJSON, readCurrentJSON.fromPath, osStatIsNotExist, ioutilReadFile,
      Disk.lookup, ancestors_vvrDataPath]
    simp only [Disk.walk, Disk.nodes, hcacheAfter, findNode_put_self, hu, Except.map]
    rfl

/-- C7 amended, at a concrete input: `marktData` is stored on the empty disk
and read back. -/
theorem cache_round_trip_vvr_witness :
    (writeNewJSON tableJSON (Iface.vvrData marktData) emptyDisk).1 = .ok () ∧
    (writeNewJSON tableJSON (Iface.vvrData marktData) emptyDisk).2.nodes cacheDir =
      some Node.dir ∧
    (readCurrentJSON tableJSON (Iface.ptrVvrData VvrData.zero)
      (writeNewJSON tableJSON (Iface.vvrData marktData) emptyDisk).2).1 =
        ReadOutcome.done (Iface.ptrVvrData marktData) :=
  have h := cache_round_trip_vvr tableJSON marktData docMarkt emptyDisk rfl rfl
    (fun _ h => Option.noConfusion h) (by decide)
  ⟨h.1, h.2.1, h.2.2.2.1⟩

/-- The guard on a disk without the lock file. -/
theorem acquire_absent (d : Disk) (habs : findNode lockFile d.entries = none) :
    acquire d = (Acquire.acquired,
      { entries := d.put lockFile (Node.file ""),
        ops := d.ops ++ [FileOp.stat lockFile] ++ [FileOp.writeFile lockFile] }) := by
  have hst : (osStatIsNotExist lockFile d).1 = true := by
    simp only [osStatIsNotExist, lookup_top d lockFile ancestors_lockFile, habs]
  have hwr := ioutilWriteFile_ok lockFile "" (osStatIsNotExist lockFile d).2
    (by rw [ancestors_lockFile]; rfl)
    (by
      show findNode lockFile d.entries ≠ some Node.dir
      rw [habs]
      exact fun h => Option.noConfusion h)
  simp only [acquire, hst, if_true, hwr]
  rfl

/-- The guard on a disk with the lock file. -/
theorem acquire_present (d : Disk) (hpres : findNode lockFile d.entries ≠ none) :
    acquire d = (Acquire.alreadyRunning,
      { d with ops := d.ops ++ [FileOp.stat lockFile] }) := by
  have hst : (osStatIsNotExist lockFile d).1 = false := by
    simp only [osStatIsNotExist, lookup_top d lockFile ancestors_lockFile]
    cases h : findNode lockFile d.entries with
    | none => exact absurd h hpres
    | some n => rfl
  simp only [acquire, hst]
  rfl

/-- C8. The execution guard over "lock file present / absent". On a disk
without the lock file `acquire` succeeds, creates the lock file and touches no
other path. On a disk with the lock file `acquire` yields `alreadyRunning` and
leaves what every path holds unchanged; `main` then ends with exit status 1
having done nothing but the `Stat` of the lock file: no read, no write, no
request. Hence an `acquire` that follows a successful `acquire` yields
`alreadyRunning`; after `removeLockFile` the lock file is absent again. -/
theorem guard_acquire (d : Disk) :
    (d.nodes lockFile = none →
      (acquire d).1 = Acquire.acquired ∧
      (acquire d).2.nodes lockFile = some (Node.file "") ∧
      ∀ path, path ≠ lockFile → (acquire d).2.nodes path = d.nodes path) ∧
    (d.nodes lockFile ≠ none →
      (acquire d).1 = Acquire.alreadyRunning ∧
      (acquire d).2.nodes = d.nodes ∧
      ∀ (σ : Type) (env : Env σ) (json : JSON) (cities : List String) (w : σ),
        (main env json cities d w).outcome = Outcome.exit 1 ∧
        (main env json cities d w).disk.nodes = d.nodes ∧
        (main env json cities d w).disk.ops = d.ops ++ [FileOp.stat lockFile] ∧
        (main env json cities d w).fetched = []) ∧
    ((acquire d).1 = Acquire.acquired →
      (acquire (acquire d).2).1 = Acquire.alreadyRunning ∧
      (removeLockFile lockFile (acquire d).2).1 = .ok () ∧
      (removeLockFile lockFile (acquire d).2).2.nodes lockFile = none) := by
  refine ⟨fun habs => ?_, fun hpres => ?_, fun hacq => ?_⟩
  · rw [acquire_absent d habs]
    refine ⟨rfl, findNode_put_self d lockFile _, fun path hp => ?_⟩
    exact findNode_put_other d lockFile path _ hp
  · have hacq := acquire_present d hpres
    refine ⟨by rw [hacq], by rw [hacq]; rfl, fun σ env json cities w => ?_⟩
    simp only [main, hacq]
    exact ⟨trivial, rfl, trivial, trivial⟩
  · have habs : findNode lockFile d.entries = none := by
      by_contra hne
      rw [acquire_present d hne] at hacq
      cases hacq
    have hfile : findNode lockFile (d.put lockFile (Node.file "")) = some (Node.file "") :=
      findNode_put_self d lockFile _
    rw [acquire_absent d habs]
    refine ⟨?_, ?_, ?_⟩
    · rw [acquire_present _ (by rw [hfile]; exact fun h => Option.noConfusion h)]
    · simp only [removeLockFile, osRemove, lookup_top _ lockFile ancestors_lockFile, hfile]
    · simp only [removeLockFile, osRemove, lookup_top _ lockFile ancestors_lockFile, hfile]
      exact findNode_eraseNode_self lockFile _

/-- C8, at a concrete input: on the empty disk the first `acquire` succeeds and
the second yields `alreadyRunning`. -/
theorem guard_acquire_witness :
    (acquire emptyDisk).1 = Acquire.acquired ∧
    (acquire (acquire emptyDisk).2).1 = Acquire.alreadyRunning :=
  ⟨((guard_acquire emptyDisk).1 rfl).1, ((guard_acquire emptyDisk).2.2 (by decide)).1⟩

end VvrOsm
